import Mathlib

/-!
Shallow embedding of the watermark-bot pipeline in `src/app.py`
(fordlogo-bot): geometry and opacity math, the logo-card alpha pipeline,
asset resolution, the in-memory job registry (`PENDING` / `WAITING`),
TTL sweep, the render entry point `process_and_send`, the inline-button
handler `on_job_callback`, and the custom-opacity text handler `on_text`.

Conventions of the embedding:
* Python `float` arithmetic is modelled over `ℚ`.  On every integer
  percent 0..100 the double-precision value `255 * (pct / 100.0)` rounds
  (under Python's bankers `round`) to exactly the same integer as
  round-half-to-even of the exact rational `255 * pct / 100`, so
  `roundHalfEven` over `ℚ` is an exact model of the code's alpha math on
  the integer percents the bot accepts.
* Python `int(x)` on a nonnegative value is truncation, modelled by
  `ratTrunc`; Python `//` on ints is floor division, modelled by
  `Int.fdiv`.
* Python dicts (`PENDING`, `WAITING`) are association lists; the file
  system is the list of currently existing paths.
-/

/-- Round half to even (Python's `round` on the exact rational value). -/
def roundHalfEven (q : ℚ) : ℤ :=
  if q - ⌊q⌋ < 1/2 then ⌊q⌋
  else if 1/2 < q - ⌊q⌋ then ⌊q⌋ + 1
  else if ⌊q⌋ % 2 = 0 then ⌊q⌋ else ⌊q⌋ + 1

/-- Python `int(x)`: truncation toward zero on a rational. -/
def ratTrunc (q : ℚ) : ℤ :=
  q.num / (q.den : ℤ)

/-- `percent_to_alpha255` (src/app.py:121-123):
`pct = max(0.0, min(100.0, pct)); return int(round(255 * (pct / 100.0)))`. -/
def percent_to_alpha255 (pct : ℚ) : ℤ :=
  roundHalfEven (255 * (max 0 (min 100 pct) / 100))

/-- `compute_xy_for_position` (src/app.py:125-134).  `margin` defaults to
20 at every call site.  Python `//` is floor division (`Int.fdiv`);
only `y` is passed through `max(0, ·)`. -/
def compute_xy_for_position (img_w img_h logo_w logo_h : ℤ) (pos_key : String)
    (margin : ℤ) : ℤ × ℤ :=
  let x := (img_w - logo_w).fdiv 2
  let y :=
    if pos_key = "top" then margin
    else if pos_key = "mid" then (img_h - logo_h).fdiv 2
    else img_h - logo_h - margin
  (x, max 0 y)

/-- Raster-path target overlay width (src/app.py:188):
`target_w = max(1, int(im.width * SCALE))`. -/
def raster_target_w (scale : ℚ) (w : ℕ) : ℤ :=
  max 1 (ratTrunc ((w : ℚ) * scale))

/-- Video-path target overlay width (src/app.py:212-217): probed width
`vid_w` (0 when the probe failed or printed nothing);
`target_w = max(320, int(vid_w * SCALE)) if vid_w > 0 else 640`. -/
def video_target_w (scale : ℚ) (vid_w : ℕ) : ℤ :=
  if 0 < vid_w then max 320 (ratTrunc ((vid_w : ℚ) * scale)) else 640

/-- The `a.point(lambda i: alpha_val if i > 0 else 0)` step of
`build_logo_card_from_png` (src/app.py:158): the logo's alpha channel is
overwritten pixelwise. -/
def point_alpha (alpha_val orig : ℕ) : ℕ :=
  if 0 < orig then alpha_val else 0

/-- Alpha channel of `Image.alpha_composite` / `card.alpha_composite`:
straight-alpha over operator on 8-bit alphas.  When the destination is
opaque (`bg = 255`) the quotient is exact, so integer division loses
nothing. -/
def composite_alpha (fg bg : ℕ) : ℕ :=
  fg + bg * (255 - fg) / 255

/-- Alpha channel of the card produced by `build_logo_card_from_png`
(src/app.py:155-173): the card is created fully opaque
(`bg_rgb + (255,)`), and the opacity-adjusted logo (alpha channel
`point_alpha alpha_val (logoA i j)`, dimensions `w × h`) is
alpha-composited at offset `(pad, pad)`. -/
def card_alpha (logoA : ℕ → ℕ → ℕ) (w h pad alpha_val : ℕ) (x y : ℕ) : ℕ :=
  if pad ≤ x ∧ x < pad + w ∧ pad ≤ y ∧ y < pad + h then
    composite_alpha (point_alpha alpha_val (logoA (x - pad) (y - pad))) 255
  else 255

/-- `WATERMARKS` (src/app.py:42-45): variant key → asset path. -/
def WATERMARKS : List (String × String) :=
  [("white", "assets/white.png"), ("black", "assets/black.png")]

/-- `ensure_logo` (src/app.py:84-87), parameterized by which paths
currently exist on disk (`exFn`):
`p = WATERMARKS.get(key); return p if (p and p.exists()) else
WATERMARKS.get("white", list(WATERMARKS.values())[0])`. -/
def ensure_logo (exFn : String → Bool) (key : String) : String :=
  match List.lookup key WATERMARKS with
  | some p =>
      if exFn p then p
      else (List.lookup "white" WATERMARKS).getD ((WATERMARKS.map Prod.snd).headD "")
  | none => (List.lookup "white" WATERMARKS).getD ((WATERMARKS.map Prod.snd).headD "")

/-- One entry of `PENDING` (src/app.py:402-403, 418-419):
`{user_id, type, src, ts, logo, pos, opacity}`. -/
structure Job where
  user_id : ℕ
  type : String
  src : String
  ts : ℚ
  logo : Option String
  pos : Option String
  opacity : Option ℚ
deriving DecidableEq

/-- The bot's shared mutable state: the `PENDING` dict (association list
with unique keys), the `WAITING` dict, and the set of temp files
currently existing on disk. -/
structure BotState where
  pending : List (String × Job)
  waiting : List (ℕ × String)
  files : List String
deriving DecidableEq

/-- `PENDING.pop(job_id, None)`: drop the binding for `job_id`. -/
def eraseKey (l : List (String × Job)) (jid : String) : List (String × Job) :=
  l.filter (fun p => p.1 ≠ jid)

/-- In-place mutation `job["field"] = v` of the dict entry for `jid`. -/
def setJob (l : List (String × Job)) (jid : String) (j : Job) : List (String × Job) :=
  l.map (fun p => if p.1 = jid then (jid, j) else p)

/-- `WAITING.pop(user_id, None)`. -/
def eraseWaiting (w : List (ℕ × String)) (u : ℕ) : List (ℕ × String) :=
  w.filter (fun p => p.1 ≠ u)

/-- `WAITING[user_id] = job_id`. -/
def setWaiting (w : List (ℕ × String)) (u : ℕ) (jid : String) : List (ℕ × String) :=
  (u, jid) :: eraseWaiting w u

/-- `Path(p).unlink(missing_ok=True)`: the path no longer exists. -/
def unlink (files : List String) (path : String) : List String :=
  files.filter (fun f => f ≠ path)

/-- `JOB_TTL_SECS = 15 * 60` (src/app.py:63). -/
def JOB_TTL_SECS : ℚ := 15 * 60

/-- `cleanup_old_jobs` (src/app.py:89-95): collect the stale job ids
(`now - j["ts"] > JOB_TTL_SECS`), unlink each one's `src`, and pop each
from `PENDING`. -/
def cleanup_old_jobs (now : ℚ) (st : BotState) : BotState :=
  { pending := st.pending.filter (fun p => ¬ JOB_TTL_SECS < now - p.2.ts),
    waiting := st.waiting,
    files := st.files.filter
      (fun f => ¬ (st.pending.filter (fun p => JOB_TTL_SECS < now - p.2.ts)).any
        (fun p => p.2.src == f)) }

/-- Python truthiness test `not job.get("logo")` on an optional string:
`None` and `""` are falsy. -/
def falsy : Option String → Bool
  | none => true
  | some s => s == ""

/-- Spec-level predicate: a job is renderable when `logo`, `pos` and
`opacity` are all (truthily) set, mirroring the three guards of
`process_and_send`. -/
def renderable (j : Job) : Bool :=
  !(falsy j.logo) && !(falsy j.pos) && j.opacity.isSome

/-- Observable outcome of `process_and_send`. -/
inductive RenderOutcome where
  | expired
  | missingLogo
  | missingPos
  | missingOpacity
  | sent
  | renderFailed
deriving DecidableEq

/-- `process_and_send` (src/app.py:278-318), with the success of the
external render/delivery abstracted as `renderOk`.  Returns the new
state, the user-visible outcome, and the number of render attempts
performed.  A render attempt happens only after all three field guards
pass; the `finally` block then unlinks `src` and pops the job whatever
the attempt's outcome. -/
def process_and_send (st : BotState) (job_id : String) (renderOk : Bool) :
    BotState × RenderOutcome × ℕ :=
  match List.lookup job_id st.pending with
  | none => (st, .expired, 0)
  | some job =>
    if falsy job.logo then (st, .missingLogo, 0)
    else if falsy job.pos then (st, .missingPos, 0)
    else if job.opacity.isNone then (st, .missingOpacity, 0)
    else
      (⟨eraseKey st.pending job_id, st.waiting, unlink st.files job.src⟩,
       (if renderOk then .sent else .renderFailed), 1)

/-- User-visible result of the inline-button handler `on_job_callback`. -/
inductive CbResult where
  | badRequest
  | canceled
  | expired
  | notOwner
  | unknownLogo
  | logoSet
  | unknownPos
  | posSet
  | opacitySet (outcome : RenderOutcome)
  | customPrompt
  | unknownAction
deriving DecidableEq

/-- `float(val)` for the curated opacity buttons `"40" | "60" | "80"`. -/
def curated_opacity (val : String) : ℚ :=
  if val = "40" then 40 else if val = "60" then 60 else 80

/-- Body of `on_job_callback` (src/app.py:423-475) after the callback
data has been split into `job_id`, `sect` (the section tag) and `rest`.
The `cancel` branch pops the job and unlinks its source *before any
ownership check*; every other section looks the job up, then checks
`cb.from_user.id != job["user_id"]`, then validates and applies the
field.  A curated opacity immediately runs `process_and_send`. -/
def job_callback_core (st : BotState) (caller : ℕ) (job_id sect : String)
    (rest : List String) (renderOk : Bool) : BotState × CbResult :=
  if sect = "cancel" then
    match List.lookup job_id st.pending with
    | some job =>
        (⟨eraseKey st.pending job_id, st.waiting, unlink st.files job.src⟩, .canceled)
    | none => (st, .canceled)
  else
    match List.lookup job_id st.pending with
    | none => (st, .expired)
    | some job =>
      if caller ≠ job.user_id then (st, .notOwner)
      else if sect = "logo" then
        match rest.head? with
        | some val =>
          if (List.lookup val WATERMARKS).isSome then
            (⟨setJob st.pending job_id { job with logo := some val }, st.waiting,
              st.files⟩, .logoSet)
          else (st, .unknownLogo)
        | none => (st, .unknownLogo)
      else if sect = "pos" then
        match rest.head? with
        | some val =>
          if val = "top" ∨ val = "mid" ∨ val = "bot" then
            (⟨setJob st.pending job_id { job with pos := some val }, st.waiting,
              st.files⟩, .posSet)
          else (st, .unknownPos)
        | none => (st, .unknownPos)
      else if sect = "op" then
        match rest.head? with
        | some val =>
          if val = "40" ∨ val = "60" ∨ val = "80" then
            let st1 : BotState :=
              ⟨setJob st.pending job_id { job with opacity := some (curated_opacity val) },
               st.waiting, st.files⟩
            let r := process_and_send st1 job_id renderOk
            (r.1, .opacitySet r.2.1)
          else if val = "custom" then
            (⟨st.pending, setWaiting st.waiting caller job_id, st.files⟩, .customPrompt)
          else (st, .unknownAction)
        | none => (st, .unknownAction)
      else (st, .unknownAction)

/-- `on_job_callback` (src/app.py:423-430): split `cb.data` on `":"`;
fewer than 3 parts is a bad request, otherwise dispatch on
`_, job_id, section, *rest`. -/
def on_job_callback (st : BotState) (caller : ℕ) (data : String)
    (renderOk : Bool) : BotState × CbResult :=
  match data.splitOn ":" with
  | _ :: job_id :: sect :: rest => job_callback_core st caller job_id sect rest renderOk
  | _ => (st, .badRequest)

/-- Python `str.strip()`: drop whitespace from both ends. -/
def pyStrip (s : List Char) : List Char :=
  (((s.dropWhile Char.isWhitespace).reverse).dropWhile Char.isWhitespace).reverse

/-- Leftmost match of the regex `\d{1,3}`: at the first digit position,
greedily take that digit and at most two more consecutive digits.
(`\d` is modelled over ASCII digits.) -/
def firstDigitRun : List Char → Option (List Char)
  | [] => none
  | c :: cs =>
    if c.isDigit then some (c :: (cs.takeWhile Char.isDigit).take 2)
    else firstDigitRun cs

/-- `int(...)` on the matched digit group. -/
def digitsToNat (l : List Char) : ℕ :=
  l.foldl (fun acc c => 10 * acc + (c.toNat - 48)) 0

/-- `re.search(r"(\d{1,3})", msg.text.strip())` followed by
`int(m.group(1))`. -/
def parse_custom_opacity (text : String) : Option ℕ :=
  (firstDigitRun (pyStrip text.data)).map digitsToNat

/-- User-visible result of the free-text handler `on_text`. -/
inductive TextResult where
  | ignored
  | staleCleared
  | askNumber
  | outOfRange
  | accepted (outcome : RenderOutcome)
deriving DecidableEq

/-- `on_text` (src/app.py:478-500): only acts when the sender has a
`WAITING` entry; a stale entry (job gone) is dropped; otherwise the
first 1-3 digit run of the stripped text is the candidate, rejected
outside `[10, 100]`, and on acceptance the job's opacity is set, the
`WAITING` entry is popped, and `process_and_send` runs. -/
def on_text (st : BotState) (user : ℕ) (text : String) (renderOk : Bool) :
    BotState × TextResult :=
  match List.lookup user st.waiting with
  | none => (st, .ignored)
  | some job_id =>
    match List.lookup job_id st.pending with
    | none => (⟨st.pending, eraseWaiting st.waiting user, st.files⟩, .staleCleared)
    | some job =>
      match parse_custom_opacity text with
      | none => (st, .askNumber)
      | some val =>
        if 10 ≤ val ∧ val ≤ 100 then
          let st1 : BotState :=
            ⟨setJob st.pending job_id { job with opacity := some (val : ℚ) },
             eraseWaiting st.waiting user, st.files⟩
          let r := process_and_send st1 job_id renderOk
          (r.1, .accepted r.2.1)
        else (st, .outOfRange)

example : compute_xy_for_position 10 10 20 20 "mid" 20 = (-5, 0) := by decide
example : parse_custom_opacity "1000" = some 100 := by decide
example : parse_custom_opacity " opacity 65 please " = some 65 := by decide
example : parse_custom_opacity "no digits" = none := by decide
example : ensure_logo (fun _ => false) "black" = "assets/white.png" := by decide


/-! ## General lemmas about the embedded operations -/

lemma roundHalfEven_floor_le (q : ℚ) : ⌊q⌋ ≤ roundHalfEven q := by
  unfold roundHalfEven
  split_ifs <;> omega

lemma roundHalfEven_le_floor_add_one (q : ℚ) : roundHalfEven q ≤ ⌊q⌋ + 1 := by
  unfold roundHalfEven
  split_ifs <;> omega

lemma roundHalfEven_mono {a b : ℚ} (h : a ≤ b) : roundHalfEven a ≤ roundHalfEven b := by
  rcases lt_or_eq_of_le (Int.floor_le_floor h) with hf | hf
  · calc roundHalfEven a ≤ ⌊a⌋ + 1 := roundHalfEven_le_floor_add_one a
      _ ≤ ⌊b⌋ := by omega
      _ ≤ roundHalfEven b := roundHalfEven_floor_le b
  · have hc : ((⌊a⌋ : ℚ)) = ((⌊b⌋ : ℚ)) := by exact_mod_cast hf
    unfold roundHalfEven
    rw [← hf]
    split_ifs <;> first | omega | linarith

lemma roundHalfEven_intCast (n : ℤ) : roundHalfEven (n : ℚ) = n := by
  unfold roundHalfEven
  rw [Int.floor_intCast]
  have h0 : (n : ℚ) - n = 0 := by ring
  rw [h0]
  norm_num

lemma roundHalfEven_le_of_le_int {q : ℚ} {n : ℤ} (h : q ≤ (n : ℚ)) :
    roundHalfEven q ≤ n := by
  have hfn : ⌊q⌋ ≤ n := by
    have := Int.floor_le_floor h
    simpa using this
  rcases lt_or_eq_of_le hfn with hlt | heq
  · calc roundHalfEven q ≤ ⌊q⌋ + 1 := roundHalfEven_le_floor_add_one q
      _ ≤ n := by omega
  · have hqn : q = (n : ℚ) := by
      have h1 : (n : ℚ) ≤ q := by
        rw [← heq]
        exact Int.floor_le q
      linarith
    rw [hqn, roundHalfEven_intCast]

lemma roundHalfEven_nonneg {q : ℚ} (h : 0 ≤ q) : 0 ≤ roundHalfEven q := by
  have : (0 : ℤ) ≤ ⌊q⌋ := Int.le_floor.2 (by simpa using h)
  calc (0 : ℤ) ≤ ⌊q⌋ := this
    _ ≤ roundHalfEven q := roundHalfEven_floor_le q

/-- Evaluation helper: once the floor is known, `roundHalfEven` is a
three-way case split. -/
lemma roundHalfEven_eval (q : ℚ) (f : ℤ) (hfl : ⌊q⌋ = f) :
    roundHalfEven q =
      if q - f < 1/2 then f
      else if 1/2 < q - f then f + 1
      else if f % 2 = 0 then f else f + 1 := by
  unfold roundHalfEven
  rw [hfl]

/-- Clamping is the identity on percents already in `[0, 100]`. -/
lemma percent_to_alpha255_of_mem {x : ℚ} (h0 : 0 ≤ x) (h1 : x ≤ 100) :
    percent_to_alpha255 x = roundHalfEven (255 * x / 100) := by
  unfold percent_to_alpha255
  rw [min_eq_right h1, max_eq_right h0, mul_div_assoc]

lemma percent_to_alpha255_ten : percent_to_alpha255 10 = 26 := by
  rw [percent_to_alpha255_of_mem (by norm_num) (by norm_num)]
  have harg : (255 * 10 : ℚ) / 100 = 51/2 := by norm_num
  have hfl : ⌊(51/2 : ℚ)⌋ = 25 := by
    rw [Int.floor_eq_iff]
    norm_num
  rw [harg, roundHalfEven_eval _ 25 hfl]
  norm_num

lemma percent_to_alpha255_hundred : percent_to_alpha255 100 = 255 := by
  rw [percent_to_alpha255_of_mem (by norm_num) (by norm_num)]
  have harg : (255 * 100 : ℚ) / 100 = ((255 : ℤ) : ℚ) := by norm_num
  rw [harg, roundHalfEven_intCast]

/-- C3 (counterexample): at p = 30 the code computes alpha 76 — Python's
`round` lands on the exact tie 76.5 and rounds to even — whereas
`round(255·30/100) = round(76.5) = 77` under standard (half-up)
rounding, so the claimed formula `alpha(p) = round(255·p/100)` fails at
p = 30. -/
theorem C3_counterexample :
    percent_to_alpha255 30 = 76 ∧ round ((255 * 30 : ℚ) / 100) = 77 ∧ (76 : ℤ) ≠ 77 := by
  refine ⟨?_, ?_, by decide⟩
  · rw [percent_to_alpha255_of_mem (by norm_num) (by norm_num)]
    have harg : (255 * 30 : ℚ) / 100 = 153/2 := by norm_num
    have hfl : ⌊(153/2 : ℚ)⌋ = 76 := by
      rw [Int.floor_eq_iff]
      norm_num
    rw [harg, roundHalfEven_eval _ 76 hfl]
    norm_num
  · rw [round_eq]
    have harg : (255 * 30 : ℚ) / 100 + 1/2 = 77 := by norm_num
    rw [harg]
    rw [Int.floor_eq_iff]
    norm_num

/-- C3 (amended): for integer percents p ∈ [10,100] the computed alpha is
round-half-to-even of 255·p/100 (Python `round` semantics, not half-up);
the map is monotone non-decreasing on the interval, alpha(10) = 26 and
alpha(100) = 255. -/
theorem C3_alpha_formula_monotone_endpoints (p q : ℤ)
    (hp : 10 ≤ p) (hpq : p ≤ q) (hq : q ≤ 100) :
    percent_to_alpha255 (p : ℚ) = roundHalfEven ((255 * p : ℚ) / 100)
    ∧ percent_to_alpha255 (p : ℚ) ≤ percent_to_alpha255 (q : ℚ)
    ∧ percent_to_alpha255 10 = 26 ∧ percent_to_alpha255 100 = 255 := by
  have hp0 : (0 : ℚ) ≤ (p : ℚ) := by
    have : (10 : ℚ) ≤ (p : ℚ) := by exact_mod_cast hp
    linarith
  have hp1 : (p : ℚ) ≤ 100 := by
    have hq' : (q : ℚ) ≤ 100 := by exact_mod_cast hq
    have : (p : ℚ) ≤ (q : ℚ) := by exact_mod_cast hpq
    linarith
  have hq0 : (0 : ℚ) ≤ (q : ℚ) := by
    have : (p : ℚ) ≤ (q : ℚ) := by exact_mod_cast hpq
    linarith
  have hq1 : (q : ℚ) ≤ 100 := by exact_mod_cast hq
  refine ⟨percent_to_alpha255_of_mem hp0 hp1, ?_,
    percent_to_alpha255_ten, percent_to_alpha255_hundred⟩
  rw [percent_to_alpha255_of_mem hp0 hp1, percent_to_alpha255_of_mem hq0 hq1]
  apply roundHalfEven_mono
  have : (p : ℚ) ≤ (q : ℚ) := by exact_mod_cast hpq
  linarith

/-- C3 witness: instantiating the amended theorem at p = 40, q = 80. -/
theorem C3_alpha_formula_monotone_endpoints_witness :
    percent_to_alpha255 ((40 : ℤ) : ℚ) = roundHalfEven ((255 * (40 : ℤ) : ℚ) / 100)
    ∧ percent_to_alpha255 ((40 : ℤ) : ℚ) ≤ percent_to_alpha255 ((80 : ℤ) : ℚ)
    ∧ percent_to_alpha255 10 = 26 ∧ percent_to_alpha255 100 = 255 :=
  C3_alpha_formula_monotone_endpoints 40 80 (by norm_num) (by norm_num) (by norm_num)

/-- C9: for every rational input, `percent_to_alpha255` first clamps the
percent into [0,100] (so the result only depends on the clamped value)
and always returns an alpha in [0, 255]. -/
theorem C9_alpha_always_in_range (pct : ℚ) :
    0 ≤ percent_to_alpha255 pct ∧ percent_to_alpha255 pct ≤ 255
    ∧ percent_to_alpha255 pct = percent_to_alpha255 (max 0 (min 100 pct)) := by
  have h0 : (0 : ℚ) ≤ max 0 (min 100 pct) := le_max_left _ _
  have h1 : max 0 (min 100 pct) ≤ 100 := max_le (by norm_num) (min_le_left _ _)
  have harg0 : (0 : ℚ) ≤ 255 * (max 0 (min 100 pct) / 100) := by positivity
  have harg1 : 255 * (max 0 (min 100 pct) / 100) ≤ ((255 : ℤ) : ℚ) := by
    push_cast
    linarith
  refine ⟨?_, ?_, ?_⟩
  · unfold percent_to_alpha255
    exact roundHalfEven_nonneg harg0
  · unfold percent_to_alpha255
    exact roundHalfEven_le_of_le_int harg1
  · unfold percent_to_alpha255
    rw [min_eq_right h1, max_eq_right h0]

/-- C4 (counterexample): for a 10×10 source and a 20×20 overlay the
computed horizontal origin is −5: the code does not clamp `x` to ≥ 0,
refuting "both computed origins x and y are clamped to be ≥ 0". -/
theorem C4_counterexample :
    (compute_xy_for_position 10 10 20 20 "mid" 20).1 = -5
    ∧ ¬ (0 ≤ (compute_xy_for_position 10 10 20 20 "mid" 20).1) := by decide

/-- C4 (amended): for all three anchors x = (W−w)//2 (floor division,
not clamped); `top` uses y = 20, `bot` uses y = H−h−20 (the same margin
constant 20), `mid` centers vertically; and the vertical origin y — but
not x — is clamped to ≥ 0 for every anchor. -/
theorem C4_placement_formulas (W H w h : ℤ) :
    (compute_xy_for_position W H w h "top" 20).1 = (W - w).fdiv 2
    ∧ (compute_xy_for_position W H w h "mid" 20).1 = (W - w).fdiv 2
    ∧ (compute_xy_for_position W H w h "bot" 20).1 = (W - w).fdiv 2
    ∧ (compute_xy_for_position W H w h "top" 20).2 = 20
    ∧ (compute_xy_for_position W H w h "mid" 20).2 = max 0 ((H - h).fdiv 2)
    ∧ (compute_xy_for_position W H w h "bot" 20).2 = max 0 (H - h - 20)
    ∧ ∀ pos_key, 0 ≤ (compute_xy_for_position W H w h pos_key 20).2 := by
  refine ⟨rfl, rfl, rfl, ?_, ?_, ?_, fun pos_key => ?_⟩
  · simp [compute_xy_for_position]
  · simp [compute_xy_for_position]
  · simp [compute_xy_for_position]
  · exact le_max_left _ _

lemma lookup_filter_ne {α β : Type} [DecidableEq α] [BEq α] [LawfulBEq α]
    (l : List (α × β)) (a : α) :
    List.lookup a (l.filter (fun p => p.1 ≠ a)) = none := by
  induction l with
  | nil => rfl
  | cons p t ih =>
    obtain ⟨k, v⟩ := p
    by_cases hk : k = a
    · simpa [List.filter_cons, hk] using ih
    · simpa [List.filter_cons, hk, List.lookup, beq_false_of_ne (Ne.symm hk)] using ih

lemma lookup_eraseKey_self (l : List (String × Job)) (jid : String) :
    List.lookup jid (eraseKey l jid) = none := by
  unfold eraseKey
  exact lookup_filter_ne l jid

lemma lookup_eraseWaiting_self (w : List (ℕ × String)) (u : ℕ) :
    List.lookup u (eraseWaiting w u) = none := by
  unfold eraseWaiting
  exact lookup_filter_ne w u

lemma lookup_mem {α β : Type} [BEq α] [LawfulBEq α] {l : List (α × β)} {a : α} {b : β}
    (h : List.lookup a l = some b) : (a, b) ∈ l := by
  induction l with
  | nil => simp [List.lookup] at h
  | cons p t ih =>
    obtain ⟨k, v⟩ := p
    by_cases hk : k = a
    · subst hk
      simp [List.lookup] at h
      simp [h]
    · simp only [List.lookup, beq_false_of_ne (Ne.symm hk)] at h
      exact List.mem_cons_of_mem _ (ih h)

lemma lookup_eq_none_of_forall {α β : Type} [BEq α] [LawfulBEq α]
    {l : List (α × β)} {a : α} (h : ∀ p ∈ l, p.1 ≠ a) : List.lookup a l = none := by
  induction l with
  | nil => rfl
  | cons p t ih =>
    obtain ⟨k, v⟩ := p
    have hk : k ≠ a := h (k, v) (List.mem_cons_self _ _)
    simp only [List.lookup, beq_false_of_ne (Ne.symm hk)]
    exact ih (fun q hq => h q (List.mem_cons_of_mem _ hq))

/-- With unique keys, looking up `a` after a `filter` keeps `(a, b)` iff
the predicate accepts it. -/
lemma lookup_filter_of_nodup {α β : Type} [BEq α] [LawfulBEq α] (P : α × β → Bool)
    {l : List (α × β)} (hnd : (l.map Prod.fst).Nodup) {a : α} {b : β}
    (h : List.lookup a l = some b) :
    List.lookup a (l.filter P) = if P (a, b) then some b else none := by
  induction l with
  | nil => simp [List.lookup] at h
  | cons p t ih =>
    obtain ⟨k, v⟩ := p
    rw [List.map_cons, List.nodup_cons] at hnd
    obtain ⟨hknot, hnd'⟩ := hnd
    by_cases hk : k = a
    · subst hk
      simp [List.lookup] at h
      subst h
      by_cases hP : P (k, v) = true
      · simp [List.filter_cons, hP, List.lookup]
      · rw [List.filter_cons, if_neg (by simp [hP])]
        rw [if_neg (by simp [hP])]
        apply lookup_eq_none_of_forall
        intro q hq hqa
        have hmem : q.1 ∈ List.map Prod.fst t :=
          List.mem_map_of_mem Prod.fst (List.mem_of_mem_filter hq)
        rw [hqa] at hmem
        exact hknot hmem
    · simp only [List.lookup, beq_false_of_ne (Ne.symm hk)] at h
      by_cases hP : P (k, v) = true
      · rw [List.filter_cons, if_pos hP]
        simp only [List.lookup, beq_false_of_ne (Ne.symm hk)]
        exact ih hnd' h
      · rw [List.filter_cons, if_neg (by simp [hP])]
        exact ih hnd' h

/-! ## Claim theorems: registry and handlers -/

/-- C1 (counterexample): with job "j1" owned by user 1, a `cancel`
callback from user 2 answers "Canceled" — not `NotOwner` — and the job
(and its source file) are gone: the cancel branch of `on_job_callback`
pops the job before any ownership check. -/
theorem C1_counterexample :
    (job_callback_core ⟨[("j1", ⟨1, "image", "f1", 0, none, none, none⟩)], [], ["f1"]⟩
        2 "j1" "cancel" [] true).2 = CbResult.canceled
    ∧ (job_callback_core ⟨[("j1", ⟨1, "image", "f1", 0, none, none, none⟩)], [], ["f1"]⟩
        2 "j1" "cancel" [] true).2 ≠ CbResult.notOwner
    ∧ List.lookup "j1"
        (job_callback_core ⟨[("j1", ⟨1, "image", "f1", 0, none, none, none⟩)], [], ["f1"]⟩
          2 "j1" "cancel" [] true).1.pending = none
    ∧ "f1" ∉
        (job_callback_core ⟨[("j1", ⟨1, "image", "f1", 0, none, none, none⟩)], [], ["f1"]⟩
          2 "j1" "cancel" [] true).1.files
    ∧ (2 : ℕ) ≠ 1 := by
  decide

/-- C1 (amended): a `SetField`-style callback (any section other than
`cancel`: logo, position or opacity) from a caller other than the job's
owner fails with `NotOwner` and leaves the whole state — hence every
field of the job, and the job's presence — unchanged; but `cancel`
removes the job and unlinks its source file regardless of the caller,
with no ownership check. -/
theorem C1_ownership_guard (st : BotState) (caller : ℕ) (jid sect : String)
    (rest : List String) (rOk : Bool) (job : Job)
    (hlook : List.lookup jid st.pending = some job)
    (hown : caller ≠ job.user_id) :
    (sect ≠ "cancel" →
      job_callback_core st caller jid sect rest rOk = (st, CbResult.notOwner))
    ∧ (sect = "cancel" →
      (job_callback_core st caller jid sect rest rOk).2 = CbResult.canceled
      ∧ List.lookup jid (job_callback_core st caller jid sect rest rOk).1.pending = none
      ∧ job.src ∉ (job_callback_core st caller jid sect rest rOk).1.files) := by
  constructor
  · intro hsect
    unfold job_callback_core
    rw [if_neg hsect, hlook]
    simp [hown]
  · intro hsect
    subst hsect
    unfold job_callback_core
    rw [if_pos rfl, hlook]
    refine ⟨rfl, lookup_eraseKey_self _ _, ?_⟩
    simp [unlink]

/-- C1 witness: user 2 touching user 1's job "j1" via the position
section is refused with `NotOwner` and nothing changes. -/
theorem C1_ownership_guard_witness :
    job_callback_core ⟨[("j1", ⟨1, "image", "f1", 0, none, none, none⟩)], [], ["f1"]⟩
        2 "j1" "pos" ["top"] true
      = (⟨[("j1", ⟨1, "image", "f1", 0, none, none, none⟩)], [], ["f1"]⟩, CbResult.notOwner) :=
  (C1_ownership_guard ⟨[("j1", ⟨1, "image", "f1", 0, none, none, none⟩)], [], ["f1"]⟩
      2 "j1" "pos" ["top"] true ⟨1, "image", "f1", 0, none, none, none⟩
      (by decide) (by decide)).1 (by decide)

lemma falsy_of_ne_empty {o : Option String} (h : o ≠ some "") : falsy o = o.isNone := by
  cases o with
  | none => rfl
  | some s =>
    have hs : ¬ (s = "") := fun he => h (by rw [he])
    simp [falsy, hs]

/-- C2: a job is renderable iff logo, position and opacity are all set;
`process_and_send` on a job with a missing field performs no render
attempt and reports the (first) missing field, and on a fully-set job it
performs exactly one render attempt.  (The hypotheses `≠ some ""` record
that the registry only ever stores validated non-empty strings in `logo`
and `pos`.) -/
theorem C2_renderable_guards (st : BotState) (jid : String) (job : Job) (rOk : Bool)
    (hlook : List.lookup jid st.pending = some job)
    (hlogo : job.logo ≠ some "") (hpos : job.pos ≠ some "") :
    (renderable job = true ↔ (job.logo.isSome ∧ job.pos.isSome ∧ job.opacity.isSome))
    ∧ (job.logo = none →
        process_and_send st jid rOk = (st, RenderOutcome.missingLogo, 0))
    ∧ (∀ s, job.logo = some s → job.pos = none →
        process_and_send st jid rOk = (st, RenderOutcome.missingPos, 0))
    ∧ (∀ s t, job.logo = some s → job.pos = some t → job.opacity = none →
        process_and_send st jid rOk = (st, RenderOutcome.missingOpacity, 0))
    ∧ (renderable job = false → (process_and_send st jid rOk).2.2 = 0)
    ∧ (renderable job = true → (process_and_send st jid rOk).2.2 = 1) := by
  have hfl : falsy job.logo = job.logo.isNone := falsy_of_ne_empty hlogo
  have hfp : falsy job.pos = job.pos.isNone := falsy_of_ne_empty hpos
  refine ⟨?_, ?_, ?_, ?_, ?_, ?_⟩
  · rw [renderable, hfl, hfp]
    cases job.logo <;> cases job.pos <;> cases job.opacity <;> simp
  · intro h
    simp [process_and_send, hlook, falsy, h]
  · intro s hs hn
    have hse : ¬ (s = "") := fun he => hlogo (by rw [hs, he])
    simp [process_and_send, hlook, falsy, hs, hn, hse]
  · intro s t hs ht hn
    have hse : ¬ (s = "") := fun he => hlogo (by rw [hs, he])
    have hte : ¬ (t = "") := fun he => hpos (by rw [ht, he])
    simp [process_and_send, hlook, falsy, hs, ht, hn, hse, hte]
  · intro hrf
    by_cases h1 : falsy job.logo = true
    · simp [process_and_send, hlook, h1]
    · by_cases h2 : falsy job.pos = true
      · simp [process_and_send, hlook, h1, h2]
      · by_cases h3 : job.opacity.isNone = true
        · simp [process_and_send, hlook, h1, h2, h3]
        · exfalso
          have hsome : job.opacity.isSome = true := by
            cases hop : job.opacity
            · rw [hop] at h3
              simp at h3
            · rfl
          have : renderable job = true := by
            rw [renderable]
            simp [Bool.not_eq_true] at h1 h2
            simp [h1, h2, hsome]
          rw [this] at hrf
          simp at hrf
  · intro hrt
    rw [renderable] at hrt
    simp only [Bool.and_eq_true, Bool.not_eq_true'] at hrt
    obtain ⟨⟨h1, h2⟩, h3⟩ := hrt
    have h3' : job.opacity.isNone = false := by
      cases hop : job.opacity
      · rw [hop] at h3
        simp at h3
      · rfl
    simp [process_and_send, hlook, h1, h2, h3']

/-- C2 witness: a job with logo set but no position yields a
"missing position" report and zero render attempts. -/
theorem C2_renderable_guards_witness :
    process_and_send ⟨[("j1", ⟨1, "image", "f1", 0, some "white", none, none⟩)], [], ["f1"]⟩
        "j1" true
      = (⟨[("j1", ⟨1, "image", "f1", 0, some "white", none, none⟩)], [], ["f1"]⟩,
         RenderOutcome.missingPos, 0) :=
  (C2_renderable_guards
      ⟨[("j1", ⟨1, "image", "f1", 0, some "white", none, none⟩)], [], ["f1"]⟩
      "j1" ⟨1, "image", "f1", 0, some "white", none, none⟩ true
      (by decide) (by decide) (by decide)).2.2.1 "white" rfl rfl

/-- C5 (counterexample): a job created at t0 = 0 is still returned by a
lookup — and its source file still exists — after a sweep at exactly
t = t0 + 15 minutes (900 s), because `cleanup_old_jobs` removes only
jobs with `now - ts` strictly greater than the TTL; this refutes the
claimed "any time t ≥ t0 + 15 minutes". -/
theorem C5_counterexample :
    List.lookup "j1"
        (cleanup_old_jobs 900
          ⟨[("j1", ⟨1, "image", "f1", 0, none, none, none⟩)], [], ["f1"]⟩).pending
      = some ⟨1, "image", "f1", 0, none, none, none⟩
    ∧ "f1" ∈ (cleanup_old_jobs 900
        ⟨[("j1", ⟨1, "image", "f1", 0, none, none, none⟩)], [], ["f1"]⟩).files
    ∧ (900 : ℚ) - 0 ≥ JOB_TTL_SECS := by
  refine ⟨?_, ?_, by norm_num [JOB_TTL_SECS]⟩
  · norm_num [cleanup_old_jobs, JOB_TTL_SECS, List.filter, List.lookup]
  · norm_num [cleanup_old_jobs, JOB_TTL_SECS, List.filter, List.any]

/-- C5 (amended): a sweep at time `now` removes exactly the jobs whose
age `now - ts` strictly exceeds the 15-minute TTL, and deletes each
removed job's source file; a job of age exactly 15 minutes (or less) is
retained.  After such a sweep a lookup of a removed job returns nothing. -/
theorem C5_ttl_sweep (st : BotState) (now : ℚ) (jid : String) (job : Job)
    (hnd : (st.pending.map Prod.fst).Nodup)
    (hlook : List.lookup jid st.pending = some job) :
    (JOB_TTL_SECS < now - job.ts →
        List.lookup jid (cleanup_old_jobs now st).pending = none
        ∧ job.src ∉ (cleanup_old_jobs now st).files)
    ∧ (¬ JOB_TTL_SECS < now - job.ts →
        List.lookup jid (cleanup_old_jobs now st).pending = some job) := by
  constructor
  · intro hstale
    constructor
    · show List.lookup jid
        (st.pending.filter (fun p => ¬ JOB_TTL_SECS < now - p.2.ts)) = none
      rw [lookup_filter_of_nodup _ hnd hlook]
      simp [hstale]
    · intro hmem
      have hmem' : job.src ∈ st.files.filter
          (fun f => ¬ (st.pending.filter (fun p => JOB_TTL_SECS < now - p.2.ts)).any
            (fun p => p.2.src == f)) := hmem
      rw [List.mem_filter] at hmem'
      obtain ⟨-, hpred⟩ := hmem'
      simp only [decide_eq_true_eq, List.any_eq_true, not_exists, not_and] at hpred
      have hstalemem : (jid, job) ∈
          st.pending.filter (fun p => JOB_TTL_SECS < now - p.2.ts) :=
        List.mem_filter.2 ⟨lookup_mem hlook, by simp [hstale]⟩
      have := hpred (jid, job) hstalemem
      simp at this
  · intro hfresh
    show List.lookup jid
      (st.pending.filter (fun p => ¬ JOB_TTL_SECS < now - p.2.ts)) = some job
    rw [lookup_filter_of_nodup _ hnd hlook]
    simp [hfresh]

/-- C5 witness: one second past the TTL boundary the job is swept and its
file deleted. -/
theorem C5_ttl_sweep_witness :
    List.lookup "j1"
        (cleanup_old_jobs 901
          ⟨[("j1", ⟨1, "image", "f1", 0, none, none, none⟩)], [], ["f1"]⟩).pending = none
    ∧ "f1" ∉ (cleanup_old_jobs 901
        ⟨[("j1", ⟨1, "image", "f1", 0, none, none, none⟩)], [], ["f1"]⟩).files :=
  (C5_ttl_sweep ⟨[("j1", ⟨1, "image", "f1", 0, none, none, none⟩)], [], ["f1"]⟩
      901 "j1" ⟨1, "image", "f1", 0, none, none, none⟩
      (by decide) (by decide)).1 (by norm_num [JOB_TTL_SECS])

/-- Compositing any foreground alpha ≤ 255 over an opaque background
yields an opaque pixel (the integer division is exact). -/
lemma composite_alpha_opaque (fg : ℕ) (h : fg ≤ 255) : composite_alpha fg 255 = 255 := by
  unfold composite_alpha
  rw [Nat.mul_div_cancel_left _ (by norm_num)]
  omega

/-- C6: the `a.point` step rewrites every logo alpha pixel to exactly 0
(if the original alpha was 0) or to the single computed value otherwise
— uniformly over the logo's shape, independent of the original alpha
magnitude — while the backing card's background pixels (indeed every
card pixel) stay fully opaque at alpha 255 for every opacity value. -/
theorem C6_uniform_logo_opacity_opaque_card (logoA : ℕ → ℕ → ℕ)
    (w h pad alpha_val x y o o1 o2 : ℕ) (halpha : alpha_val ≤ 255) :
    point_alpha alpha_val 0 = 0
    ∧ (0 < o → point_alpha alpha_val o = alpha_val)
    ∧ (0 < o1 → 0 < o2 → point_alpha alpha_val o1 = point_alpha alpha_val o2)
    ∧ ((x < pad ∨ pad + w ≤ x ∨ y < pad ∨ pad + h ≤ y) →
        card_alpha logoA w h pad alpha_val x y = 255)
    ∧ card_alpha logoA w h pad alpha_val x y = 255 := by
  have hall : card_alpha logoA w h pad alpha_val x y = 255 := by
    unfold card_alpha
    split_ifs with hin
    · apply composite_alpha_opaque
      unfold point_alpha
      split_ifs
      · exact halpha
      · exact Nat.zero_le _
    · rfl
  refine ⟨rfl, ?_, ?_, fun _ => hall, hall⟩
  · intro ho
    unfold point_alpha
    rw [if_pos ho]
  · intro h1 h2
    unfold point_alpha
    rw [if_pos h1, if_pos h2]

/-- C6 witness: a concrete instantiation (alpha 153 = 60 %). -/
theorem C6_uniform_logo_opacity_opaque_card_witness :
    point_alpha 153 0 = 0
    ∧ (0 < 7 → point_alpha 153 7 = 153)
    ∧ (0 < 1 → 0 < 200 → point_alpha 153 1 = point_alpha 153 200)
    ∧ ((0 < 6 ∨ 6 + 4 ≤ 0 ∨ 0 < 6 ∨ 6 + 4 ≤ 0) →
        card_alpha (fun _ _ => 128) 4 4 6 153 0 0 = 255)
    ∧ card_alpha (fun _ _ => 128) 4 4 6 153 0 0 = 255 :=
  C6_uniform_logo_opacity_opaque_card (fun _ _ => 128) 4 4 6 153 0 0 7 1 200 (by decide)

/-- C7 (counterexample): a successfully probed 100-pixel-wide video (at
the default scale 0.98) gets a 320-pixel overlay card while a
100-pixel-wide raster image gets a 98-pixel one: the video path clamps
the scaled width below at 320, the raster path at 1, so the two paths do
not compute the same target width. -/
theorem C7_counterexample :
    video_target_w (49/50) 100 = 320
    ∧ raster_target_w (49/50) 100 = 98
    ∧ video_target_w (49/50) 100 ≠ raster_target_w (49/50) 100 := by
  have harg : ((100 : ℕ) : ℚ) * (49/50) = 98 := by norm_num
  have htr : ratTrunc (((100 : ℕ) : ℚ) * (49/50)) = 98 := by
    rw [harg]
    norm_num [ratTrunc]
  refine ⟨?_, ?_, ?_⟩
  · rw [video_target_w, if_pos (by norm_num), htr]
    norm_num
  · rw [raster_target_w, htr]
    norm_num
  · rw [video_target_w, if_pos (by norm_num), raster_target_w, htr]
    norm_num

/-- C7 (amended): both paths scale the probed/decoded width by the same
configurable factor, but the video path clamps the result below at 320
while the raster path clamps at 1; whenever the scaled width is at least
320 the two paths request the same target width, and a failed probe
(width 0) falls back to the fixed width 640. -/
theorem C7_width_policy (scale : ℚ) (w : ℕ) (hw : 0 < w)
    (hbig : 320 ≤ ratTrunc ((w : ℚ) * scale)) :
    video_target_w scale w = raster_target_w scale w
    ∧ video_target_w scale w = ratTrunc ((w : ℚ) * scale)
    ∧ raster_target_w scale w = max 1 (ratTrunc ((w : ℚ) * scale))
    ∧ video_target_w scale w = max 320 (ratTrunc ((w : ℚ) * scale))
    ∧ video_target_w scale 0 = 640 := by
  have h1 : (1 : ℤ) ≤ ratTrunc ((w : ℚ) * scale) := le_trans (by norm_num) hbig
  refine ⟨?_, ?_, rfl, ?_, ?_⟩
  · rw [video_target_w, if_pos hw, raster_target_w, max_eq_right hbig, max_eq_right h1]
  · rw [video_target_w, if_pos hw, max_eq_right hbig]
  · rw [video_target_w, if_pos hw]
  · rw [video_target_w, if_neg (lt_irrefl 0)]

/-- C7 witness: at the default scale 0.98 and width 1000 both paths
agree on 980. -/
theorem C7_width_policy_witness :
    video_target_w (49/50) 1000 = raster_target_w (49/50) 1000
    ∧ video_target_w (49/50) 1000 = ratTrunc (((1000 : ℕ) : ℚ) * (49/50))
    ∧ raster_target_w (49/50) 1000 = max 1 (ratTrunc (((1000 : ℕ) : ℚ) * (49/50)))
    ∧ video_target_w (49/50) 1000 = max 320 (ratTrunc (((1000 : ℕ) : ℚ) * (49/50)))
    ∧ video_target_w (49/50) 0 = 640 :=
  C7_width_policy (49/50) 1000 (by norm_num)
    (by
      have harg : ((1000 : ℕ) : ℚ) * (49/50) = 980 := by norm_num
      rw [harg]
      norm_num [ratTrunc])

/-- C8: asset resolution is total and never surfaces an error: whenever
the requested variant's asset file does not exist (or the key is
unknown), `ensure_logo` deterministically falls back to the fixed white
asset; and in every case it returns either the white asset or the
existing requested asset. -/
theorem C8_asset_fallback (exFn : String → Bool) (key : String) :
    ((∀ p, List.lookup key WATERMARKS = some p → exFn p = false) →
      ensure_logo exFn key = "assets/white.png")
    ∧ (ensure_logo exFn key = "assets/white.png"
       ∨ ∃ p, List.lookup key WATERMARKS = some p ∧ exFn p = true
           ∧ ensure_logo exFn key = p) := by
  constructor
  · intro hmiss
    cases hkey : List.lookup key WATERMARKS with
    | none =>
      simp only [ensure_logo, hkey]
      decide
    | some p =>
      simp only [ensure_logo, hkey, hmiss p hkey]
      simp only [Bool.false_eq_true, if_false]
      decide
  · cases hkey : List.lookup key WATERMARKS with
    | none =>
      left
      simp only [ensure_logo, hkey]
      decide
    | some p =>
      by_cases hex : exFn p = true
      · right
        refine ⟨p, rfl, hex, ?_⟩
        simp only [ensure_logo, hkey, hex]
        simp
      · left
        simp only [ensure_logo, hkey]
        simp only [Bool.not_eq_true] at hex
        simp only [hex, Bool.false_eq_true, if_false]
        decide

/-- C8 witness: with no asset files on disk, requesting "black" falls
back to the white asset path. -/
theorem C8_asset_fallback_witness :
    ensure_logo (fun _ => false) "black" = "assets/white.png" :=
  (C8_asset_fallback (fun _ => false) "black").1 (fun _ _ => rfl)

/-- `process_and_send` never touches the `WAITING` table. -/
lemma process_and_send_waiting (st : BotState) (jid : String) (rOk : Bool) :
    (process_and_send st jid rOk).1.waiting = st.waiting := by
  rcases hl : List.lookup jid st.pending with _ | job
  · simp [process_and_send, hl]
  · simp only [process_and_send, hl]
    split_ifs <;> rfl

/-- C10: while a user is in the custom-opacity waiting state (with a
live job), the first 1-3 digit run of the message is the candidate (so
"1000" parses as 100 and is accepted); an in-range candidate sets the
job's opacity to it, removes the user's waiting entry (so the lookup
afterwards is empty — one-shot) and hands the job to
`process_and_send`; an out-of-range candidate or a digitless message
leaves the state entirely unchanged. -/
theorem C10_custom_opacity (st : BotState) (user : ℕ) (text : String)
    (jid : String) (job : Job) (rOk : Bool)
    (hw : List.lookup user st.waiting = some jid)
    (hj : List.lookup jid st.pending = some job) :
    parse_custom_opacity "1000" = some 100
    ∧ (∀ val, parse_custom_opacity text = some val → 10 ≤ val → val ≤ 100 →
        on_text st user text rOk =
          ((process_and_send
              ⟨setJob st.pending jid { job with opacity := some (val : ℚ) },
               eraseWaiting st.waiting user, st.files⟩ jid rOk).1,
           TextResult.accepted
             (process_and_send
                ⟨setJob st.pending jid { job with opacity := some (val : ℚ) },
                 eraseWaiting st.waiting user, st.files⟩ jid rOk).2.1)
          ∧ List.lookup user (on_text st user text rOk).1.waiting = none)
    ∧ (parse_custom_opacity text = none →
        on_text st user text rOk = (st, TextResult.askNumber))
    ∧ (∀ val, parse_custom_opacity text = some val → ¬ (10 ≤ val ∧ val ≤ 100) →
        on_text st user text rOk = (st, TextResult.outOfRange)) := by
  refine ⟨by decide, ?_, ?_, ?_⟩
  · intro val hp h10 h100
    have heq : on_text st user text rOk =
        ((process_and_send
            ⟨setJob st.pending jid { job with opacity := some (val : ℚ) },
             eraseWaiting st.waiting user, st.files⟩ jid rOk).1,
         TextResult.accepted
           (process_and_send
              ⟨setJob st.pending jid { job with opacity := some (val : ℚ) },
               eraseWaiting st.waiting user, st.files⟩ jid rOk).2.1) := by
      simp only [on_text, hw, hj, hp]
      rw [if_pos ⟨h10, h100⟩]
    refine ⟨heq, ?_⟩
    rw [heq]
    simp only [process_and_send_waiting]
    exact lookup_eraseWaiting_self st.waiting user
  · intro hp
    simp only [on_text, hw, hj, hp]
  · intro val hp hout
    simp only [on_text, hw, hj, hp]
    rw [if_neg hout]

/-- C10 witness: user 7, waiting on a fully-chosen job, sends "1000":
the candidate 100 is accepted, the job renders and is torn down, and the
waiting entry is gone. -/
theorem C10_custom_opacity_witness :
    on_text ⟨[("j1", ⟨7, "image", "f1", 0, some "white", some "top", none⟩)],
             [(7, "j1")], ["f1"]⟩ 7 "1000" true
      = ((process_and_send
            ⟨setJob [("j1", ⟨7, "image", "f1", 0, some "white", some "top", none⟩)]
               "j1" ⟨7, "image", "f1", 0, some "white", some "top", some ((100 : ℕ) : ℚ)⟩,
             eraseWaiting [(7, "j1")] 7, ["f1"]⟩ "j1" true).1,
         TextResult.accepted
           (process_and_send
              ⟨setJob [("j1", ⟨7, "image", "f1", 0, some "white", some "top", none⟩)]
                 "j1" ⟨7, "image", "f1", 0, some "white", some "top", some ((100 : ℕ) : ℚ)⟩,
               eraseWaiting [(7, "j1")] 7, ["f1"]⟩ "j1" true).2.1)
    ∧ List.lookup 7
        (on_text ⟨[("j1", ⟨7, "image", "f1", 0, some "white", some "top", none⟩)],
                  [(7, "j1")], ["f1"]⟩ 7 "1000" true).1.waiting = none :=
  (C10_custom_opacity
      ⟨[("j1", ⟨7, "image", "f1", 0, some "white", some "top", none⟩)],
       [(7, "j1")], ["f1"]⟩ 7 "1000" "j1"
      ⟨7, "image", "f1", 0, some "white", some "top", none⟩ true
      (by decide) (by decide)).2.1 100 (by decide) (by decide) (by decide)
